import Mathlib

/-!
Verification development for the shared MTG booster utilities
(`src/unnamed/part_000` and `src/shared/mtg.js`).

The JavaScript source is shallowly embedded:
* JS numbers used in 32-bit bitwise contexts are modelled as `Nat` bit
  patterns below `2^32` (unsigned view) or as `Int` wrapped through
  `toInt32` (signed view), with the wrap written out explicitly.
* The values produced by `random()` are modelled by their 32-bit numerator
  `r` (the value is `r / 2^32`); this is exactly the granularity of the
  source's mulberry32 generator, and every such value is an IEEE double,
  so comparisons like `random() < 0.125` are embedded exactly as rational
  comparisons `jsFloat r < 1/8`.  `Math.floor(random() * len)` is exact in
  double arithmetic for every realistic list length (`len < 2^21`) and is
  embedded as `r * len / 2^32` in `Nat`.
* The ambient `Math.random` source is an explicit oracle `Nat → Nat`
  threaded with a call counter, mirroring the stateful closure.
* `fetch`/network effects are modelled by passing the would-be fetched
  data (booster files, attempt outcomes) as explicit arguments.
* JS `undefined`/`null` and falsy field accesses are modelled with
  `Option`.
-/

/-! ## 32-bit helpers and the mulberry32 generator -/

/-- The modulus of 32-bit patterns, `2^32`. -/
def U32 : Nat := 4294967296

/-- JS `ToInt32`: wrap an integer into the signed 32-bit range. -/
def toInt32 (n : Int) : Int := (n + 2147483648) % 4294967296 - 2147483648

/-- Unsigned 32-bit pattern of an integer (JS `>>> 0` view). -/
def toUInt32p (n : Int) : Nat := (n % 4294967296).toNat

/-- JS `Math.imul`: 32-bit truncating multiplication on bit patterns. -/
def imul32 (a b : Nat) : Nat := a * b % U32

/-- The real number `random()` returns, given the 32-bit numerator `r`:
the source computes `((t ^ t >>> 14) >>> 0) / 4294967296`. -/
def jsFloat (r : Nat) : ℚ := Rat.divInt (r : Int) (U32 : Int)

/-- JS `Math.floor(random() * len)` for a random numerator `r`; exact
because the double product is exact for all realistic `len`. -/
def jsIndex (r len : Nat) : Nat := r * len / U32

/-- Output scrambling of mulberry32 (`seededRandom`'s closure body) applied
to the post-increment state `s`, as a 32-bit pattern:
`t = imul(s ^ s>>>15, 1|s); t = t + imul(t ^ t>>>7, 61|t) ^ t; t ^ t>>>14`. -/
def mulberryVal (s : Nat) : Nat :=
  let t1 := imul32 (s ^^^ (s >>> 15)) (s ||| 1)
  let t2 := ((t1 + imul32 (t1 ^^^ (t1 >>> 7)) (t1 ||| 61)) % U32) ^^^ t1
  t2 ^^^ (t2 >>> 14)

/-- Internal state of the mulberry32 closure after `i` increments:
each call performs `seed = seed + 0x6D2B79F5 | 0`. -/
def mulberryState (s0 : Nat) : Nat → Nat
  | 0 => s0
  | Nat.succ k => (mulberryState s0 k + 0x6D2B79F5) % U32

/-- The numerator of the `i`-th value (0-based) drawn from the seeded
generator started at 32-bit state `s0`. -/
def mulberrySeq (s0 : Nat) (i : Nat) : Nat := mulberryVal (mulberryState s0 (i + 1))

/-- The rolling hash shared by `hashString` and `hashDate`:
`hash = ((hash << 5) - hash) + charCode; hash |= 0` per character.
`charCodeAt` agrees with the Unicode code point on the BMP characters
(all strings hashed by this program are ASCII). -/
def jsHash : List Char → Int → Int
  | [], h => h
  | c :: rest, h => jsHash rest (toInt32 (toInt32 (h * 32) - h + (c.toNat : Int)))

/-- `hashString` from the source: signed 32-bit rolling hash of a string. -/
def hashString (s : String) : Int := jsHash s.data 0

/-- `hashDate` from the source: the same rolling hash, then `Math.abs`. -/
def hashDate (s : String) : Nat := (jsHash s.data 0).natAbs

/-- A seed value passed to the generators: JS callers pass a string or a
number (or `null`, modelled by `Option` at use sites). -/
inductive JSSeed
  | str (s : String)
  | num (n : Int)
deriving DecidableEq

/-- JS truthiness of a seed value: `""` and `0` are falsy. -/
def seedTruthy : JSSeed → Bool
  | .str s => !s.data.isEmpty
  | .num n => decide (n ≠ 0)

/-- Initial 32-bit state of `seededRandom(seed)`: a string seed is first
reduced by `hashString`, then `seed |= 0` truncates to 32 bits. -/
def seedInit : JSSeed → Nat
  | .str s => toUInt32p (hashString s)
  | .num n => toUInt32p (toInt32 n)

/-- `const random = seed ? seededRandom(seed) : Math.random`:
the random stream actually used, given the ambient `Math.random` oracle. -/
def randomStream (seed : Option JSSeed) (ambient : Nat → Nat) : Nat → Nat :=
  match seed with
  | some sd => if seedTruthy sd then mulberrySeq (seedInit sd) else ambient
  | none => ambient

/-! ## Range matcher (`isInRange`) -/

/-- Whitespace skipped by `parseInt` (the forms that occur in practice). -/
def jsWhitespace (c : Char) : Bool := c = ' ' || c = '\t' || c = '\n' || c = '\r'

/-- Accumulate a decimal digit list into a number. -/
def digitsToNat : List Char → Nat → Nat
  | [], acc => acc
  | c :: rest, acc => digitsToNat rest (acc * 10 + (c.toNat - '0'.toNat))

/-- Parse the leading run of decimal digits; `none` when there is none. -/
def parseDigits (cs : List Char) : Option Nat :=
  let ds := cs.takeWhile (fun c => c.isDigit)
  if ds.isEmpty then none else some (digitsToNat ds 0)

/-- JS `parseInt(s, 10)`: skip whitespace, optional sign, then the leading
decimal digits; `NaN` (here `none`) if no digit follows. -/
def jsParseInt (s : String) : Option Int :=
  let cs := s.data.dropWhile jsWhitespace
  match cs with
  | '-' :: rest => (parseDigits rest).map (fun n => -(n : Int))
  | '+' :: rest => (parseDigits rest).map (fun n => (n : Int))
  | _ => (parseDigits cs).map (fun n => (n : Int))

/-- JS `String.prototype.split` with a single-character separator. -/
def splitCharAux (sep : Char) : List Char → List Char → List (List Char)
  | [], acc => [acc.reverse]
  | c :: rest, acc =>
    if c = sep then acc.reverse :: splitCharAux sep rest []
    else splitCharAux sep rest (c :: acc)

/-- `rangeStr.split('-')` as a list of strings. -/
def splitDash (s : String) : List String :=
  (splitCharAux '-' s.data []).map (fun cs => String.mk cs)

/-- `isInRange(cn, rangeStr)` from the source: extract the leading integer
of `cn` (`NaN` fails closed); a dashed range is an inclusive bound test on
its first two pieces, a plain range is an equality test.  Comparisons
against `NaN` are false. -/
def isInRange (cn : String) (rangeStr : String) : Bool :=
  match jsParseInt cn with
  | none => false
  | some cnNum =>
    if rangeStr.data.contains '-' then
      match ((splitDash rangeStr).get? 0).bind jsParseInt,
            ((splitDash rangeStr).get? 1).bind jsParseInt with
      | some a, some b => decide (a ≤ cnNum) && decide (cnNum ≤ b)
      | _, _ => false
    else
      match jsParseInt rangeStr with
      | some v => decide (cnNum = v)
      | none => false

/-! ## Cards and the exclusivity classifier -/

/-- A Scryfall card record, restricted to the fields this code reads.
`promo_types` and `frame_effects` are `Option` because the JS reads them
through `|| []`. -/
structure Card where
  id : Nat
  collector_number : String
  rarity : String
  promo_types : Option (List String)
  frame_effects : Option (List String)
deriving DecidableEq

/-- `setConfig.playBooster` with its `includeCollectorNumbers` field. -/
structure PlayBoosterCfg where
  includeCollectorNumbers : Option (List String)
deriving DecidableEq

/-- `setConfig.collectorExclusive` with its `collectorNumbers` field. -/
structure CollectorCfg where
  collectorNumbers : Option (List String)
deriving DecidableEq

/-- A `SetBoosterConfig` as built by `fetchSetConfig`. -/
structure SetConfig where
  playBooster : Option PlayBoosterCfg
  collectorExclusive : Option CollectorCfg
deriving DecidableEq

/-- `isInPlayBooster(card, setConfig)`: `null` (here `none`) when the
config chain `setConfig?.playBooster?.includeCollectorNumbers` is absent,
else whether some range matches the collector number. -/
def isInPlayBooster (card : Card) (cfg : SetConfig) : Option Bool :=
  match cfg.playBooster with
  | none => none
  | some pb =>
    match pb.includeCollectorNumbers with
    | none => none
    | some ranges => some (ranges.any (fun r => isInRange card.collector_number r))

/-- `isCollectorExclusiveByConfig(card, setConfig)`: `null` when the
collector-exclusive range list is absent, else a range match. -/
def isCollectorExclusiveByConfig (card : Card) (cfg : SetConfig) : Option Bool :=
  match cfg.collectorExclusive with
  | none => none
  | some ce =>
    match ce.collectorNumbers with
    | none => none
    | some ranges => some (ranges.any (fun r => isInRange card.collector_number r))

/-- `COLLECTOR_EXCLUSIVE_PROMOS` from `src/unnamed/part_000`. -/
def COLLECTOR_EXCLUSIVE_PROMOS : List String :=
  ["fracturefoil", "texturedfoil", "ripplefoil",
   "halofoil", "confettifoil", "galaxyfoil", "surgefoil",
   "raisedfoil", "headliner"]

/-- `COLLECTOR_EXCLUSIVE_FRAMES` from `src/unnamed/part_000`. -/
def COLLECTOR_EXCLUSIVE_FRAMES : List String := ["inverted", "extendedart"]

/-- The generic fallback rule of `isCollectorExclusive` (its final three
lines): any collector-exclusive promo type or frame effect. -/
def genericExclusive (card : Card) : Bool :=
  let promos := card.promo_types.getD []
  let frames := card.frame_effects.getD []
  promos.any (fun p => COLLECTOR_EXCLUSIVE_PROMOS.contains p) ||
    frames.any (fun f => COLLECTOR_EXCLUSIVE_FRAMES.contains f)

/-- `isCollectorExclusive(card, setConfig)` from `src/unnamed/part_000`:
an explicit-in-play answer wins (`false`); an explicit collector-exclusive
answer wins (`true`); every other case falls through to the generic rule. -/
def isCollectorExclusive (card : Card) (setConfig : Option SetConfig) : Bool :=
  match setConfig with
  | some cfg =>
    match isInPlayBooster card cfg with
    | some true => false
    | some false =>
      match isCollectorExclusiveByConfig card cfg with
      | some true => true
      | _ => genericExclusive card
    | none => genericExclusive card
  | none => genericExclusive card

/-! ## Legacy sealed-pool generator (`generateSealedPool`) -/

/-- The four rarity buckets built at the top of `generateSealedPool`. -/
structure Buckets where
  common : List Card
  uncommon : List Card
  rare : List Card
  mythic : List Card
deriving DecidableEq

/-- Group a catalog by rarity, as in `generateSealedPool`. -/
def byRarity (cards : List Card) : Buckets :=
  { common := cards.filter (fun c => c.rarity == "common")
    uncommon := cards.filter (fun c => c.rarity == "uncommon")
    rare := cards.filter (fun c => c.rarity == "rare")
    mythic := cards.filter (fun c => c.rarity == "mythic") }

/-- `pickRandom(arr, random)` = `arr[Math.floor(random() * arr.length)]`,
as the zero-or-one-element list actually appended to the pool.  The index
is always in bounds for a nonempty list and a numerator below `2^32`. -/
def pickRandomList (arr : List Card) (r : Nat) : List Card :=
  match arr.get? (jsIndex r arr.length) with
  | some c => [c]
  | none => []

/-- The `for`-loop drawing up to `n` cards from a fixed bucket, guarded by
`if (bucket.length > 0)`: an empty bucket draws nothing and consumes no
random values.  Returns the drawn cards and the advanced stream counter. -/
def drawN (bucket : List Card) (o : Nat → Nat) : Nat → Nat → List Card × Nat
  | 0, i => ([], i)
  | Nat.succ n, i =>
    if bucket.isEmpty then ([], i)
    else
      let c := pickRandomList bucket (o i)
      let p := drawN bucket o n (i + 1)
      (c ++ p.1, p.2)

/-- The rare-or-mythic slot of a legacy pack, parameterised by the mythic
threshold `thr` (the two source copies disagree on it):
`const isMythic = random() < thr && byRarity.mythic.length > 0`, then one
pick from the chosen bucket when it is nonempty. -/
def rareDraw (thr : ℚ) (b : Buckets) (o : Nat → Nat) (i : Nat) : List Card × Nat :=
  let r0 := o i
  let isMythic := decide (jsFloat r0 < thr) && !b.mythic.isEmpty
  let rarePool := if isMythic then b.mythic else b.rare
  if rarePool.isEmpty then (([] : List Card), i + 1)
  else (pickRandomList rarePool (o (i + 1)), i + 2)

/-- One pack of the legacy generator: the rare-or-mythic draw, three
uncommons, ten commons. -/
def genPack (thr : ℚ) (b : Buckets) (o : Nat → Nat) (i : Nat) : List Card × Nat :=
  let p1 := rareDraw thr b o i
  let p2 := drawN b.uncommon o 3 p1.2
  let p3 := drawN b.common o 10 p2.2
  (p1.1 ++ p2.1 ++ p3.1, p3.2)

/-- The pack loop of the legacy generator (`for (let pack = 0; ...)`). -/
def genPacks (thr : ℚ) (b : Buckets) (o : Nat → Nat) : Nat → Nat → List Card × Nat
  | 0, i => ([], i)
  | Nat.succ n, i =>
    let p := genPack thr b o i
    let rest := genPacks thr b o n p.2
    (p.1 ++ rest.1, rest.2)

/-- `generateSealedPool(cards, seed)` from `src/unnamed/part_000`:
six packs, mythic threshold the literal `0.125`. -/
def generateSealedPool (cards : List Card) (seed : Option JSSeed)
    (ambient : Nat → Nat) : List Card :=
  (genPacks (Rat.divInt 1 8) (byRarity cards) (randomStream seed ambient) 6 0).1

/-- The IEEE double produced by the literal `1/7` in `src/shared/mtg.js`:
`2^55/7 = 5146971002709138.2857...`, rounded to nearest. -/
def ONE_SEVENTH_D : ℚ := Rat.divInt 5146971002709138 36028797018963968

/-- `generateSealedPool(cards, seed)` from `src/shared/mtg.js`: identical
to the `part_000` copy except the mythic threshold is the double `1/7`. -/
def generateSealedPoolShared (cards : List Card) (seed : Option JSSeed)
    (ambient : Nat → Nat) : List Card :=
  (genPacks ONE_SEVENTH_D (byRarity cards) (randomStream seed ambient) 6 0).1

/-! ## Structured generator (`generateSealedPoolFromBoosterData`) -/

/-- A slot of a booster file.  `count` is falsy in JS when `0` or absent,
so `0` models both; `pool` maps finish names to range lists in declaration
order. -/
structure Slot where
  name : Option String
  count : Nat
  rarities : Option (List String)
  mythicRate : Option ℚ
  pool : Option (List (String × List String))
deriving DecidableEq

/-- A booster file (`{setName, source, slots}`). -/
structure BoosterFile where
  setName : Option String
  source : Option String
  slots : List Slot
deriving DecidableEq

/-- `Object.values(slot.pool)` flattened: all ranges of a slot in order. -/
def slotRangesOf (pl : List (String × List String)) : List String :=
  (pl.map Prod.snd).flatten

/-- Lookup in the `cardsByRarityInPool` object (insertion-ordered keys). -/
def lookupRar (m : List (String × List Card)) (k : String) : Option (List Card) :=
  match m with
  | [] => none
  | p :: rest => if p.1 == k then some p.2 else lookupRar rest k

/-- Assignment `cardsByRarityInPool[rarity] = v`, keeping key order. -/
def setRar (m : List (String × List Card)) (k : String) (v : List Card) :
    List (String × List Card) :=
  match m with
  | [] => [(k, v)]
  | p :: rest => if p.1 == k then (k, v) :: rest else p :: setRar rest k v

/-- Push `c` unless a card with the same `id` is already in the bucket. -/
def addUnique (bucket : List Card) (c : Card) : List Card :=
  if bucket.any (fun x => x.id == c.id) then bucket else bucket ++ [c]

/-- Body of the `for (const rarity of slot.rarities)` loop building
`cardsByRarityInPool`. -/
def rarityStep (cards : List Card) (ranges : List String)
    (m : List (String × List Card)) (r : String) : List (String × List Card) :=
  let bucket := (lookupRar m r).getD []
  let matching := cards.filter (fun c =>
    c.rarity == r && ranges.any (fun rg => isInRange c.collector_number rg))
  setRar m r (matching.foldl addUnique bucket)

/-- The slot loop building `cardsByRarityInPool`: slots without both a
`pool` and `rarities` are skipped. -/
def buildByRarity (cards : List Card) : List Slot → List (String × List Card) →
    List (String × List Card)
  | [], m => m
  | sl :: rest, m =>
    match sl.pool, sl.rarities with
    | some pl, some rs =>
      buildByRarity cards rest (rs.foldl (rarityStep cards (slotRangesOf pl)) m)
    | _, _ => buildByRarity cards rest m

/-- `allInPool`: catalog cards whose collector number falls in any slot's
range union. -/
def allInPool (cards : List Card) (slots : List Slot) : List Card :=
  cards.filter (fun c => slots.any (fun sl =>
    match sl.pool with
    | some pl => (slotRangesOf pl).any (fun rg => isInRange c.collector_number rg)
    | none => false))

/-- Rarity selection for a slot item: for a rare+mythic slot, compare a
fresh random draw with the slot's mythic rate (default `0.125`), but the
draw is short-circuited away when the mythic bucket is empty, exactly as
`hasMythics && random() < mythicRate` does; otherwise index uniformly into
the declared rarities.  Returns the chosen rarity (JS `undefined` is
`none`) and the advanced stream counter. -/
def chooseRarity (byR : List (String × List Card)) (sl : Slot) (rs : List String)
    (o : Nat → Nat) (i : Nat) : Option String × Nat :=
  if rs.contains "mythic" && rs.contains "rare" then
    let mRate := sl.mythicRate.getD (Rat.divInt 1 8)
    let hasMythics := decide (((lookupRar byR "mythic").getD []).length > 0)
    if hasMythics then
      (if decide (jsFloat (o i) < mRate) then (some "mythic", i + 1)
       else (some "rare", i + 1))
    else (some "rare", i)
  else
    (rs.get? (jsIndex (o i) rs.length), i + 1)

/-- One item of a slot: rarity selection then a uniform pick from the
resolved bucket; a wildcard slot picks from its filtered range pool.
Empty buckets draw nothing. -/
def slotItem (byR : List (String × List Card)) (allP : List Card) (sl : Slot)
    (o : Nat → Nat) (i : Nat) : List Card × Nat :=
  match sl.rarities with
  | some rs =>
    let rp := chooseRarity byR sl rs o i
    let rarityPool := (rp.1.bind (lookupRar byR)).getD []
    if rarityPool.isEmpty then ([], rp.2)
    else (pickRandomList rarityPool (o rp.2), rp.2 + 1)
  | none =>
    let slotCards := allP.filter (fun c =>
      match sl.pool with
      | some pl => (slotRangesOf pl).any (fun rg => isInRange c.collector_number rg)
      | none => false)
    if slotCards.isEmpty then ([], i)
    else (pickRandomList slotCards (o i), i + 1)

/-- The `for (let i = 0; i < count; i++)` loop of a slot. -/
def slotItems (byR : List (String × List Card)) (allP : List Card) (sl : Slot)
    (o : Nat → Nat) : Nat → Nat → List Card × Nat
  | 0, i => ([], i)
  | Nat.succ n, i =>
    let p := slotItem byR allP sl o i
    let rest := slotItems byR allP sl o n p.2
    (p.1 ++ rest.1, rest.2)

/-- The slot loop of one pack: slots lacking a `pool` or with a falsy
`count` are skipped. -/
def slotsRun (byR : List (String × List Card)) (allP : List Card)
    (o : Nat → Nat) : List Slot → Nat → List Card × Nat
  | [], i => ([], i)
  | sl :: rest, i =>
    match sl.pool with
    | none => slotsRun byR allP o rest i
    | some _ =>
      if sl.count == 0 then slotsRun byR allP o rest i
      else
        let p := slotItems byR allP sl o sl.count i
        let q := slotsRun byR allP o rest p.2
        (p.1 ++ q.1, q.2)

/-- The pack loop of the structured generator. -/
def packsRun (byR : List (String × List Card)) (allP : List Card)
    (slots : List Slot) (o : Nat → Nat) : Nat → Nat → List Card × Nat
  | 0, i => ([], i)
  | Nat.succ n, i =>
    let p := slotsRun byR allP o slots i
    let rest := packsRun byR allP slots o n p.2
    (p.1 ++ rest.1, rest.2)

/-- `generateSealedPoolFromBoosterData(setCode, cards, numPacks, seed)`.
The network loads (booster index and file) are modelled by the resolved
booster file argument: `none` covers every fallback branch (no index
entry, no play/draft type, missing file or slots), in which case the
function returns `generateSealedPool(cards, seed)`. -/
def generateSealedPoolFromBoosterData (bf : Option BoosterFile)
    (cards : List Card) (numPacks : Nat) (seed : Option JSSeed)
    (ambient : Nat → Nat) : List Card :=
  match bf with
  | none => generateSealedPool cards seed ambient
  | some f =>
    let o := randomStream seed ambient
    let byR := buildByRarity cards f.slots []
    let allP := allInPool cards f.slots
    (packsRun byR allP f.slots o numPacks 0).1

/-! ## `fetchWithRetry` -/

/-- Outcome of one `fetch` attempt, as observed by `fetchWithRetry`:
a 429 status, a successfully parsed JSON payload (modelled by `Nat`), or
a generic failure (network throw, non-ok status, or JSON parse error —
all reach the `catch` block the same way). -/
inductive Attempt
  | ok (v : Nat)
  | rate429
  | fail
deriving DecidableEq

/-- Result of `fetchWithRetry`: a returned payload, a thrown error, or a
normal loop exit returning `undefined` (here `exhausted`). -/
inductive FetchResult
  | ok (v : Nat)
  | thrown
  | exhausted
deriving DecidableEq

/-- The retry loop body: `rem` iterations remain, `i` is the loop index.
A 429 pauses 1000 ms and continues (the `for` update still runs `i++`);
a generic failure rethrows on the last attempt (`i === retries - 1`) and
otherwise pauses `100 * (i + 1)` ms.  Returns the result and the list of
delays performed. -/
def fetchAux (att : Nat → Attempt) (retries : Nat) : Nat → Nat → FetchResult × List Nat
  | 0, _ => (.exhausted, [])
  | Nat.succ rem, i =>
    match att i with
    | .ok v => (.ok v, [])
    | .rate429 =>
      let p := fetchAux att retries rem (i + 1)
      (p.1, 1000 :: p.2)
    | .fail =>
      if i = retries - 1 then (.thrown, [])
      else
        let p := fetchAux att retries rem (i + 1)
        (p.1, 100 * (i + 1) :: p.2)

/-- `fetchWithRetry(url, retries)` from the source, over the sequence of
attempt outcomes the network would deliver. -/
def fetchWithRetry (att : Nat → Attempt) (retries : Nat := 3) : FetchResult × List Nat :=
  fetchAux att retries retries 0

/-! ## Daily set selection -/

/-- `getDailySeed(date)`: the date's ISO calendar-day string (passed here
directly, standing for `date.toISOString().split('T')[0]`) prefixed with
`daily-`. -/
def getDailySeed (dateStr : String) : String := "daily-" ++ dateStr

/-- JS `String.prototype.replace` with a string pattern: replace the
first occurrence only. -/
def replaceFirstAux (pat rep : List Char) : List Char → List Char
  | [] => []
  | c :: rest =>
    if pat.isPrefixOf (c :: rest) then rep ++ (c :: rest).drop pat.length
    else c :: replaceFirstAux pat rep rest

/-- `s.replace(pat, rep)` for string patterns (first occurrence). -/
def jsReplaceFirst (pat rep s : String) : String :=
  String.mk (replaceFirstAux pat.data rep.data s.data)

/-- Lexicographic `<` on code points, matching JS string comparison for
the ASCII strings involved. -/
def lexLt : List Char → List Char → Bool
  | [], [] => false
  | [], _ :: _ => true
  | _ :: _, [] => false
  | a :: as1, b :: bs1 =>
    if a.toNat < b.toNat then true
    else if b.toNat < a.toNat then false
    else lexLt as1 bs1

/-- The filter `s.released && s.released >= '2020-01-01'`: an absent or
empty release date is falsy. -/
def releasedOk (rel : Option String) : Bool :=
  match rel with
  | none => false
  | some r => if r.data.isEmpty then false else ! lexLt r.data ("2020-01-01".data)

/-- A set record as consumed by `pickDailySet`. -/
structure SetInfo where
  code : String
  released : Option String
deriving DecidableEq

/-- `pickDailySet(sets, date)` from the source.  When the filtered list is
empty, JS computes `hash % 0 = NaN` and `recentSets[NaN]` is `undefined`:
the function returns `undefined` (here `none`) without throwing. -/
def pickDailySet (sets : List SetInfo) (dateStr : String) : Option SetInfo :=
  let seed := getDailySeed dateStr
  let ds := jsReplaceFirst "daily-" "" seed
  let recentSets := sets.filter (fun s => releasedOk s.released)
  if recentSets.length = 0 then none
  else recentSets.get? (hashDate ds % recentSets.length)

/-! ## Helper lemmas -/

theorem U32_eq_pow : U32 = 2 ^ 32 := by norm_num [U32]

theorem U32_pos : 0 < U32 := by norm_num [U32]

theorem mulberryVal_lt (s : Nat) : mulberryVal s < U32 := by
  unfold mulberryVal
  rw [U32_eq_pow]
  have h1 : imul32 (s ^^^ (s >>> 15)) (s ||| 1) < 2 ^ 32 := by
    rw [← U32_eq_pow]; exact Nat.mod_lt _ U32_pos
  have h2 : ((imul32 (s ^^^ (s >>> 15)) (s ||| 1) +
      imul32 ((imul32 (s ^^^ (s >>> 15)) (s ||| 1)) ^^^
        ((imul32 (s ^^^ (s >>> 15)) (s ||| 1)) >>> 7))
        ((imul32 (s ^^^ (s >>> 15)) (s ||| 1)) ||| 61)) % U32) < 2 ^ 32 := by
    rw [← U32_eq_pow]; exact Nat.mod_lt _ U32_pos
  have h3 := Nat.xor_lt_two_pow h2 h1
  have h4 : (((imul32 (s ^^^ (s >>> 15)) (s ||| 1) +
      imul32 ((imul32 (s ^^^ (s >>> 15)) (s ||| 1)) ^^^
        ((imul32 (s ^^^ (s >>> 15)) (s ||| 1)) >>> 7))
        ((imul32 (s ^^^ (s >>> 15)) (s ||| 1)) ||| 61)) % U32) ^^^
      imul32 (s ^^^ (s >>> 15)) (s ||| 1)) >>> 14 < 2 ^ 32 := by
    calc _ ≤ _ := by
          rw [Nat.shiftRight_eq_div_pow]; exact Nat.div_le_self _ _
      _ < 2 ^ 32 := h3
  exact Nat.xor_lt_two_pow h3 h4

theorem randomStream_lt (seed : Option JSSeed) (amb : Nat → Nat)
    (h : ∀ j, amb j < U32) : ∀ j, randomStream seed amb j < U32 := by
  intro j
  match seed with
  | none => exact h j
  | some sd =>
    by_cases ht : seedTruthy sd = true
    · simp only [randomStream, ht, if_true, mulberrySeq]
      exact mulberryVal_lt _
    · simp only [randomStream, Bool.not_eq_true] at ht ⊢
      rw [ht]
      simp only [Bool.false_eq_true, if_false]
      exact h j

theorem jsIndex_lt {arr : List Card} {r : Nat} (hne : arr ≠ [])
    (hr : r < U32) : jsIndex r arr.length < arr.length := by
  have hlen : 0 < arr.length := List.length_pos.mpr hne
  unfold jsIndex
  rw [Nat.div_lt_iff_lt_mul U32_pos]
  calc r * arr.length < U32 * arr.length :=
        Nat.mul_lt_mul_of_lt_of_le hr le_rfl hlen
    _ = arr.length * U32 := Nat.mul_comm _ _

theorem pickRandomList_eq {arr : List Card} {r : Nat} (hne : arr ≠ [])
    (hr : r < U32) :
    ∃ c, pickRandomList arr r = [c] ∧ c ∈ arr := by
  have hidx := jsIndex_lt hne hr
  refine ⟨arr.get ⟨jsIndex r arr.length, hidx⟩, ?_, List.get_mem _ _ _⟩
  unfold pickRandomList
  rw [List.get?_eq_get hidx]

theorem pickRandomList_mem {arr : List Card} {r : Nat} {c : Card}
    (h : c ∈ pickRandomList arr r) : c ∈ arr := by
  unfold pickRandomList at h
  cases hg : arr.get? (jsIndex r arr.length) with
  | none => rw [hg] at h; simp at h
  | some d =>
    rw [hg] at h
    simp only [List.mem_singleton] at h
    subst h
    exact List.get?_mem hg

theorem fetchAux_all429 (att : Nat → Attempt) (retries : Nat) :
    ∀ rem i, (∀ j, i ≤ j → j < i + rem → att j = Attempt.rate429) →
      fetchAux att retries rem i = (FetchResult.exhausted, List.replicate rem 1000) := by
  intro rem
  induction rem with
  | zero => intro i _; rfl
  | succ n ih =>
    intro i h
    have h0 : att i = Attempt.rate429 := h i le_rfl (by omega)
    have hrec := ih (i + 1) (fun j hj1 hj2 => h j (by omega) (by omega))
    simp [fetchAux, h0, hrec, List.replicate_succ]

theorem fetchAux_congr (att1 att2 : Nat → Attempt) (retries : Nat)
    (h : ∀ j, j < retries → att1 j = att2 j) :
    ∀ rem i, i + rem ≤ retries →
      fetchAux att1 retries rem i = fetchAux att2 retries rem i := by
  intro rem
  induction rem with
  | zero => intro i _; rfl
  | succ n ih =>
    intro i hle
    have he : att1 i = att2 i := h i (by omega)
    have hr := ih (i + 1) (by omega)
    simp only [fetchAux, he, hr]

/-! ## Claim theorems -/

/-- Claim C2: whenever a supplied `SetBoosterConfig`'s play-booster ranges
include the card's collector number, `isCollectorExclusive` returns
`false`, regardless of the card's promo types and frame effects. -/
theorem C2_config_overrides (card : Card) (cfg : SetConfig)
    (pb : PlayBoosterCfg) (ranges : List String)
    (hpb : cfg.playBooster = some pb)
    (hrg : pb.includeCollectorNumbers = some ranges)
    (hin : ranges.any (fun r => isInRange card.collector_number r) = true) :
    isCollectorExclusive card (some cfg) = false := by
  simp [isCollectorExclusive, isInPlayBooster, hpb, hrg, hin]

/-- Witness for C2: a card with the collector-exclusive promo type
`surgefoil` whose collector number `7` is inside the configured play
range `1-10` is classified as not exclusive. -/
theorem C2_witness :
    isCollectorExclusive ⟨1, "7", "rare", some ["surgefoil"], none⟩
      (some ⟨some ⟨some ["1-10"]⟩, none⟩) = false :=
  C2_config_overrides _ _ ⟨some ["1-10"]⟩ ["1-10"] rfl rfl (by decide)

/-- Counterexample to Claim C6: a card outside both the play-booster
ranges and a present collector-exclusive range list — the authoritative
config answers `false`, not `null` — is still classified by the generic
heuristic, which fires on its `surgefoil` promo type. -/
theorem C6_counterexample :
    isInPlayBooster ⟨10, "50", "rare", some ["surgefoil"], none⟩
        ⟨some ⟨some ["1-10"]⟩, some ⟨some ["100-200"]⟩⟩ = some false ∧
    isCollectorExclusiveByConfig ⟨10, "50", "rare", some ["surgefoil"], none⟩
        ⟨some ⟨some ["1-10"]⟩, some ⟨some ["100-200"]⟩⟩ = some false ∧
    isCollectorExclusive ⟨10, "50", "rare", some ["surgefoil"], none⟩
        (some ⟨some ⟨some ["1-10"]⟩, some ⟨some ["100-200"]⟩⟩) = true := by
  decide

/-- Claim C6 as amended: the config is consulted first and an explicit
positive answer on either tier wins, but the generic promo/frame
heuristic is consulted in every remaining case — including when the
authoritative source answered `false` rather than `null`. -/
theorem C6_fallthrough (card : Card) (cfg : SetConfig) :
    (isInPlayBooster card cfg = none →
      isCollectorExclusive card (some cfg) = genericExclusive card) ∧
    (isInPlayBooster card cfg = some true →
      isCollectorExclusive card (some cfg) = false) ∧
    (isInPlayBooster card cfg = some false →
      isCollectorExclusiveByConfig card cfg = some true →
      isCollectorExclusive card (some cfg) = true) ∧
    (isInPlayBooster card cfg = some false →
      isCollectorExclusiveByConfig card cfg ≠ some true →
      isCollectorExclusive card (some cfg) = genericExclusive card) := by
  refine ⟨?_, ?_, ?_, ?_⟩
  · intro h1; simp [isCollectorExclusive, h1]
  · intro h1; simp [isCollectorExclusive, h1]
  · intro h1 h2; simp [isCollectorExclusive, h1, h2]
  · intro h1 h2
    cases hby : isCollectorExclusiveByConfig card cfg with
    | none => simp [isCollectorExclusive, h1, hby]
    | some b =>
      cases b with
      | true => exact absurd hby h2
      | false => simp [isCollectorExclusive, h1, hby]

/-- Witness for C6's amended theorem at the counterexample input: config
answered `false` on both tiers, and the result equals the generic rule. -/
theorem C6_witness :
    isCollectorExclusive ⟨10, "50", "rare", some ["surgefoil"], none⟩
        (some ⟨some ⟨some ["1-10"]⟩, some ⟨some ["100-200"]⟩⟩) =
      genericExclusive ⟨10, "50", "rare", some ["surgefoil"], none⟩ :=
  (C6_fallthrough ⟨10, "50", "rare", some ["surgefoil"], none⟩
      ⟨some ⟨some ["1-10"]⟩, some ⟨some ["100-200"]⟩⟩).2.2.2
    (by decide) (by decide)

/-- Claim C8: `isInRange` semantics — the four documented examples, the
fail-closed behaviour on an unparseable collector number, the equality
test for a plain range, and the inclusive bound test for a dashed range. -/
theorem C8_range_semantics :
    (isInRange "7" "1-10" = true) ∧
    (isInRange "11" "1-10" = false) ∧
    (isInRange "7" "7" = true) ∧
    (isInRange "abc" "1-10" = false) ∧
    (∀ cn r, jsParseInt cn = none → isInRange cn r = false) ∧
    (∀ cn r v, r.data.contains '-' = false → jsParseInt cn = some v →
      (isInRange cn r = true ↔ jsParseInt r = some v)) ∧
    (∀ cn r v a b, r.data.contains '-' = true → jsParseInt cn = some v →
      ((splitDash r).get? 0).bind jsParseInt = some a →
      ((splitDash r).get? 1).bind jsParseInt = some b →
      (isInRange cn r = true ↔ a ≤ v ∧ v ≤ b)) := by
  refine ⟨by decide, by decide, by decide, by decide, ?_, ?_, ?_⟩
  · intro cn r h; simp [isInRange, h]
  · intro cn r v hd hp
    simp only [isInRange, hp, hd, Bool.false_eq_true, if_false]
    cases hq : jsParseInt r with
    | none => simp
    | some w =>
      simp only [decide_eq_true_eq, Option.some.injEq]
      exact ⟨fun h => by rw [h], fun h => h.symm⟩
  · intro cn r v a b hd hp ha hb
    simp only [isInRange, hp]
    rw [if_pos hd, ha, hb]
    simp

/-- Witness for C8's quantified parts: fail-closed at an unparseable
collector number. -/
theorem C8_witness : isInRange "zz" "1-3" = false :=
  C8_range_semantics.2.2.2.2.1 "zz" "1-3" (by decide)

/-- Counterexample to Claim C4: when no set survives the release-date
cutoff (here the only set predates `2020-01-01`, then the empty list), JS
computes `hash % 0 = NaN` and `recentSets[NaN]` is `undefined` — the
function returns `undefined` (embedded as `none`) silently instead of
raising or throwing. -/
theorem C4_counterexample :
    pickDailySet [⟨"eld", some "2019-10-04"⟩] "2025-03-03" = none ∧
    pickDailySet [] "2025-03-03" = none := by
  decide

/-- Claim C4 as amended: `pickDailySet` is a pure function of the sets
list and the date (determinism is definitional in this embedding); when
no set survives the cutoff filter it silently returns `undefined`
(`none`), and otherwise it returns some member of the filtered list. -/
theorem C4_deterministic_silent (sets : List SetInfo) (dateStr : String) :
    (sets.filter (fun s => releasedOk s.released) = [] →
      pickDailySet sets dateStr = none) ∧
    (sets.filter (fun s => releasedOk s.released) ≠ [] →
      ∃ s, pickDailySet sets dateStr = some s ∧
        s ∈ sets.filter (fun s2 => releasedOk s2.released)) := by
  constructor
  · intro h
    simp [pickDailySet, h]
  · intro h
    have hlen : 0 < (sets.filter (fun s => releasedOk s.released)).length :=
      List.length_pos.mpr h
    have hidx : hashDate (jsReplaceFirst "daily-" "" (getDailySeed dateStr)) %
        (sets.filter (fun s => releasedOk s.released)).length <
        (sets.filter (fun s => releasedOk s.released)).length :=
      Nat.mod_lt _ hlen
    refine ⟨(sets.filter (fun s => releasedOk s.released)).get ⟨_, hidx⟩, ?_, ?_⟩
    · unfold pickDailySet
      rw [if_neg (by omega), List.get?_eq_get hidx]
    · exact List.get_mem _ _ _

/-- Witness for C4's amended theorem: a single 2020 set is eligible and
gets picked. -/
theorem C4_witness :
    ∃ s, pickDailySet [⟨"znr", some "2020-09-25"⟩] "2025-03-03" = some s ∧
      s ∈ ([⟨"znr", some "2020-09-25"⟩] : List SetInfo).filter
        (fun s2 => releasedOk s2.released) :=
  (C4_deterministic_silent [⟨"znr", some "2020-09-25"⟩] "2025-03-03").2 (by decide)

/-- Counterexample to Claim C3: three consecutive 429 responses exhaust
the three-attempt cap — each rate-limited retry consumes a loop iteration
(JS `continue` still runs the `i++` update) — and the function falls out
of the loop after exactly three 1000 ms pauses, returning `undefined`.
Under the claim's accounting a 429 would not consume an attempt and the
cap could never be exhausted by rate limiting alone. -/
theorem C3_counterexample :
    fetchWithRetry (fun _ => Attempt.rate429) 3 =
      (FetchResult.exhausted, [1000, 1000, 1000]) := by
  decide

/-- Claim C3 as amended: a 429 pauses a fixed 1000 ms and retries, but
does consume one of the capped attempts, so an all-429 run of `retries`
responses ends exhausted after exactly `retries` fetches; generic errors
back off linearly (`100·(i+1)` ms) and the third consecutive generic
error is rethrown; and the loop is bounded — the result depends only on
the first `retries` responses of any input sequence. -/
theorem C3_retry_accounting :
    (∀ att retries, (∀ i, i < retries → att i = Attempt.rate429) →
      fetchWithRetry att retries =
        (FetchResult.exhausted, List.replicate retries 1000)) ∧
    (∀ att, att 0 = Attempt.fail → att 1 = Attempt.fail →
      att 2 = Attempt.fail →
      fetchWithRetry att 3 = (FetchResult.thrown, [100, 200])) ∧
    (∀ att1 att2 retries, (∀ i, i < retries → att1 i = att2 i) →
      fetchWithRetry att1 retries = fetchWithRetry att2 retries) := by
  refine ⟨?_, ?_, ?_⟩
  · intro att retries h
    exact fetchAux_all429 att retries retries 0 (fun j _ hj => h j (by omega))
  · intro att h0 h1 h2
    simp [fetchWithRetry, fetchAux, h0, h1, h2]
  · intro att1 att2 retries h
    exact fetchAux_congr att1 att2 retries h retries 0 (by omega)

/-- Witness for C3's amended theorem: two 429 responses against a cap of
two exhaust it with two fixed pauses. -/
theorem C3_witness :
    fetchWithRetry (fun _ => Attempt.rate429) 2 =
      (FetchResult.exhausted, List.replicate 2 1000) :=
  C3_retry_accounting.1 (fun _ => Attempt.rate429) 2 (fun _ _ => rfl)

/-- Claim C10: when every attempt of `fetchWithRetry`'s capped loop
receives a 429 response, the loop exits normally and the function returns
`undefined` (embedded as `exhausted`) — neither a payload nor a thrown
error. -/
theorem C10_exhausted_rate_limit (att : Nat → Attempt)
    (h : ∀ i, i < 3 → att i = Attempt.rate429) :
    (fetchWithRetry att 3).1 = FetchResult.exhausted := by
  have hall := fetchAux_all429 att 3 3 0 (fun j _ hj => h j (by omega))
  simp [fetchWithRetry, hall]

/-- Witness for C10 at the constant-429 response sequence. -/
theorem C10_witness :
    (fetchWithRetry (fun _ => Attempt.rate429) 3).1 = FetchResult.exhausted :=
  C10_exhausted_rate_limit (fun _ => Attempt.rate429) (fun _ _ => rfl)

theorem rareDraw_head (thr : ℚ) (b : Buckets) (o : Nat → Nat) (i : Nat)
    (hb : ∀ j, o j < U32) (hm : b.mythic ≠ []) (hr : b.rare ≠ []) :
    (jsFloat (o i) < thr →
      ∃ c, (rareDraw thr b o i).1 = [c] ∧ c ∈ b.mythic) ∧
    (¬ jsFloat (o i) < thr →
      ∃ c, (rareDraw thr b o i).1 = [c] ∧ c ∈ b.rare) := by
  have hmE : b.mythic.isEmpty = false := by
    simp [List.isEmpty_iff, hm]
  have hrE : b.rare.isEmpty = false := by
    simp [List.isEmpty_iff, hr]
  constructor
  · intro h
    obtain ⟨c, hc, hcm⟩ := pickRandomList_eq hm (hb (i + 1))
    refine ⟨c, ?_, hcm⟩
    simp [rareDraw, h, hmE, hc]
  · intro h
    obtain ⟨c, hc, hcm⟩ := pickRandomList_eq hr (hb (i + 1))
    refine ⟨c, ?_, hcm⟩
    simp [rareDraw, h, hmE, hrE, hc]

theorem genPack_head (thr : ℚ) (b : Buckets) (o : Nat → Nat) (i : Nat)
    (hb : ∀ j, o j < U32) (hm : b.mythic ≠ []) (hr : b.rare ≠ []) :
    (jsFloat (o i) < thr →
      ∃ c, ((genPack thr b o i).1).head? = some c ∧ c ∈ b.mythic) ∧
    (¬ jsFloat (o i) < thr →
      ∃ c, ((genPack thr b o i).1).head? = some c ∧ c ∈ b.rare) := by
  obtain ⟨h1, h2⟩ := rareDraw_head thr b o i hb hm hr
  constructor
  · intro h
    obtain ⟨c, hc, hcm⟩ := h1 h
    refine ⟨c, ?_, hcm⟩
    simp [genPack, hc]
  · intro h
    obtain ⟨c, hc, hcm⟩ := h2 h
    refine ⟨c, ?_, hcm⟩
    simp [genPack, hc]

/-- Counterexample to Claim C5: the `src/shared/mtg.js` copy of the
legacy generator substitutes a mythic even when the fresh draw equals
`0.125` (and so is not below it), because its threshold is the double
nearest `1/7 ≈ 0.142857`; the `part_000` copy picks the rare there.  The
ambient oracle returns the numerator of exactly `0.125` on every call. -/
theorem C5_counterexample :
    generateSealedPoolShared
        [⟨1, "1", "rare", none, none⟩, ⟨2, "2", "mythic", none, none⟩]
        none (fun _ => 536870912) =
      List.replicate 6 ⟨2, "2", "mythic", none, none⟩ ∧
    generateSealedPool
        [⟨1, "1", "rare", none, none⟩, ⟨2, "2", "mythic", none, none⟩]
        none (fun _ => 536870912) =
      List.replicate 6 ⟨1, "1", "rare", none, none⟩ ∧
    ¬ jsFloat 536870912 < 1/8 := by
  refine ⟨by decide, by decide, ?_⟩
  rw [jsFloat, Rat.divInt_eq_div]
  norm_num [U32]

/-- Claim C5 as amended: in the `part_000` legacy generator each pack's
rare-or-mythic draw substitutes a mythic exactly when the fresh draw is
below `0.125` and the mythic bucket is nonempty; the `src/shared/mtg.js`
copy behaves identically but with the threshold the IEEE double nearest
`1/7`.  Stated on `genPack`, the per-pack function that
`generateSealedPool` and `generateSealedPoolShared` iterate six times. -/
theorem C5_mythic_threshold (cards : List Card) (o : Nat → Nat) (i : Nat)
    (hb : ∀ j, o j < U32)
    (hm : (byRarity cards).mythic ≠ []) (hr : (byRarity cards).rare ≠ []) :
    (jsFloat (o i) < 1/8 →
      ∃ c, ((genPack (1/8) (byRarity cards) o i).1).head? = some c ∧
        c ∈ (byRarity cards).mythic) ∧
    (¬ jsFloat (o i) < 1/8 →
      ∃ c, ((genPack (1/8) (byRarity cards) o i).1).head? = some c ∧
        c ∈ (byRarity cards).rare) ∧
    (jsFloat (o i) < ONE_SEVENTH_D →
      ∃ c, ((genPack ONE_SEVENTH_D (byRarity cards) o i).1).head? = some c ∧
        c ∈ (byRarity cards).mythic) ∧
    (¬ jsFloat (o i) < ONE_SEVENTH_D →
      ∃ c, ((genPack ONE_SEVENTH_D (byRarity cards) o i).1).head? = some c ∧
        c ∈ (byRarity cards).rare) := by
  obtain ⟨h1, h2⟩ := genPack_head (1/8) (byRarity cards) o i hb hm hr
  obtain ⟨h3, h4⟩ := genPack_head ONE_SEVENTH_D (byRarity cards) o i hb hm hr
  exact ⟨h1, h2, h3, h4⟩

/-- Witness for C5's amended theorem: with a constant-zero oracle the
draw `0` is below `0.125`, so the pack's first card is the mythic. -/
theorem C5_witness :
    ∃ c, ((genPack (1/8)
        (byRarity [⟨1, "1", "rare", none, none⟩, ⟨2, "2", "mythic", none, none⟩])
        (fun _ => 0) 0).1).head? = some c ∧
      c ∈ (byRarity [⟨1, "1", "rare", none, none⟩,
        ⟨2, "2", "mythic", none, none⟩]).mythic :=
  (C5_mythic_threshold
      [⟨1, "1", "rare", none, none⟩, ⟨2, "2", "mythic", none, none⟩]
      (fun _ => 0) 0 (fun _ => by norm_num [U32])
      (by decide) (by decide)).1
    (by rw [jsFloat, Rat.divInt_eq_div]; norm_num)

/-- Counterexample to Claim C1: the empty string is a seed, but it is
falsy, so `seed ? seededRandom(seed) : Math.random` selects the ambient
`Math.random` path and two calls with the same catalog and the same seed
`""` can return different pools (here under two realisable ambient
oracles: constant `0` and constant `2^31`). -/
theorem C1_counterexample :
    generateSealedPool
        [⟨1, "1", "rare", none, none⟩, ⟨2, "2", "rare", none, none⟩]
        (some (JSSeed.str "")) (fun _ => 0) ≠
      generateSealedPool
        [⟨1, "1", "rare", none, none⟩, ⟨2, "2", "rare", none, none⟩]
        (some (JSSeed.str "")) (fun _ => 2147483648) := by
  decide

/-- Claim C1 as amended: for every truthy seed (any non-empty string or
non-zero number) both generator branches thread the single deterministic
mulberry32 stream derived from the seed, so the output pool is a function
of the catalog, booster data, pack count and seed alone — it does not
depend on the ambient `Math.random` oracle, hence two calls with the same
arguments agree. -/
theorem C1_determinism (cards : List Card) (bf : Option BoosterFile)
    (numPacks : Nat) (sd : JSSeed) (a1 a2 : Nat → Nat)
    (h : seedTruthy sd = true) :
    generateSealedPool cards (some sd) a1 =
      generateSealedPool cards (some sd) a2 ∧
    generateSealedPoolFromBoosterData bf cards numPacks (some sd) a1 =
      generateSealedPoolFromBoosterData bf cards numPacks (some sd) a2 := by
  have hs : ∀ a : Nat → Nat,
      randomStream (some sd) a = mulberrySeq (seedInit sd) := by
    intro a
    simp [randomStream, h]
  constructor
  · simp [generateSealedPool, hs]
  · cases bf with
    | none => simp [generateSealedPoolFromBoosterData, generateSealedPool, hs]
    | some f => simp [generateSealedPoolFromBoosterData, hs]

/-- Witness for C1: with the seed `seed-A`, two different ambient oracles
produce the same pool through both branches. -/
theorem C1_witness :
    generateSealedPool [⟨1, "1", "rare", none, none⟩]
        (some (JSSeed.str "seed-A")) (fun _ => 0) =
      generateSealedPool [⟨1, "1", "rare", none, none⟩]
        (some (JSSeed.str "seed-A")) (fun _ => 7) ∧
    generateSealedPoolFromBoosterData none [⟨1, "1", "rare", none, none⟩] 6
        (some (JSSeed.str "seed-A")) (fun _ => 0) =
      generateSealedPoolFromBoosterData none [⟨1, "1", "rare", none, none⟩] 6
        (some (JSSeed.str "seed-A")) (fun _ => 7) :=
  C1_determinism [⟨1, "1", "rare", none, none⟩] none 6 (JSSeed.str "seed-A")
    (fun _ => 0) (fun _ => 7) (by decide)

theorem drawN_length (bucket : List Card) (o : Nat → Nat)
    (hb : ∀ j, o j < U32) (hne : bucket ≠ []) :
    ∀ n i, (drawN bucket o n i).1.length = n := by
  intro n
  induction n with
  | zero => intro i; rfl
  | succ k ih =>
    intro i
    have hE : bucket.isEmpty = false := by simp [List.isEmpty_iff, hne]
    obtain ⟨c, hc, _⟩ := pickRandomList_eq hne (hb i)
    simp [drawN, hE, hc, ih]

theorem rareDraw_length (thr : ℚ) (b : Buckets) (o : Nat → Nat) (i : Nat)
    (hb : ∀ j, o j < U32) (hm : b.mythic ≠ []) (hr : b.rare ≠ []) :
    (rareDraw thr b o i).1.length = 1 := by
  by_cases h : jsFloat (o i) < thr
  · obtain ⟨c, hc, _⟩ := (rareDraw_head thr b o i hb hm hr).1 h
    rw [hc]
    rfl
  · obtain ⟨c, hc, _⟩ := (rareDraw_head thr b o i hb hm hr).2 h
    rw [hc]
    rfl

theorem genPack_length (thr : ℚ) (b : Buckets) (o : Nat → Nat) (i : Nat)
    (hb : ∀ j, o j < U32) (hc : b.common ≠ []) (hu : b.uncommon ≠ [])
    (hr : b.rare ≠ []) (hm : b.mythic ≠ []) :
    (genPack thr b o i).1.length = 14 := by
  simp [genPack, rareDraw_length thr b o i hb hm hr,
    drawN_length b.uncommon o hb hu, drawN_length b.common o hb hc]

theorem genPacks_length (thr : ℚ) (b : Buckets) (o : Nat → Nat)
    (hb : ∀ j, o j < U32) (hc : b.common ≠ []) (hu : b.uncommon ≠ [])
    (hr : b.rare ≠ []) (hm : b.mythic ≠ []) :
    ∀ n i, (genPacks thr b o n i).1.length = 14 * n := by
  intro n
  induction n with
  | zero => intro i; rfl
  | succ k ih =>
    intro i
    simp [genPacks, genPack_length thr b o _ hb hc hu hr hm, ih]
    ring

/-- Claim C7: for a catalog with all four rarity buckets nonempty, each
legacy pack contributes `1 + 3 + 10 = 14` cards, so the six-pack pool has
exactly 84 cards — in both source copies of the legacy generator. -/
theorem C7_cardinality (cards : List Card) (seed : Option JSSeed)
    (amb : Nat → Nat) (hb : ∀ j, amb j < U32)
    (hc : (byRarity cards).common ≠ []) (hu : (byRarity cards).uncommon ≠ [])
    (hr : (byRarity cards).rare ≠ []) (hm : (byRarity cards).mythic ≠ []) :
    (generateSealedPool cards seed amb).length = 84 ∧
    (generateSealedPoolShared cards seed amb).length = 84 := by
  have ho := randomStream_lt seed amb hb
  constructor
  · show (genPacks (Rat.divInt 1 8) (byRarity cards)
      (randomStream seed amb) 6 0).1.length = 84
    rw [genPacks_length _ _ _ ho hc hu hr hm]
  · show (genPacks ONE_SEVENTH_D (byRarity cards)
      (randomStream seed amb) 6 0).1.length = 84
    rw [genPacks_length _ _ _ ho hc hu hr hm]

/-- Witness for C7 on a four-card catalog with one card per rarity. -/
theorem C7_witness :
    (generateSealedPool
        [⟨1, "1", "common", none, none⟩, ⟨2, "2", "uncommon", none, none⟩,
         ⟨3, "3", "rare", none, none⟩, ⟨4, "4", "mythic", none, none⟩]
        none (fun _ => 0)).length = 84 ∧
    (generateSealedPoolShared
        [⟨1, "1", "common", none, none⟩, ⟨2, "2", "uncommon", none, none⟩,
         ⟨3, "3", "rare", none, none⟩, ⟨4, "4", "mythic", none, none⟩]
        none (fun _ => 0)).length = 84 :=
  C7_cardinality _ none (fun _ => 0) (fun _ => by norm_num [U32])
    (by decide) (by decide) (by decide) (by decide)

theorem drawN_mem (bucket : List Card) (o : Nat → Nat) :
    ∀ n i c, c ∈ (drawN bucket o n i).1 → c ∈ bucket := by
  intro n
  induction n with
  | zero => intro i c h; simp [drawN] at h
  | succ k ih =>
    intro i c h
    simp only [drawN] at h
    split at h
    · simp at h
    · rcases List.mem_append.mp h with h1 | h2
      · exact pickRandomList_mem h1
      · exact ih (i + 1) c h2

theorem rareDraw_mem (thr : ℚ) (b : Buckets) (o : Nat → Nat) (i : Nat)
    (c : Card) (h : c ∈ (rareDraw thr b o i).1) :
    c ∈ b.mythic ∨ c ∈ b.rare := by
  simp only [rareDraw] at h
  rcases Bool.eq_false_or_eq_true
      (decide (jsFloat (o i) < thr) && !b.mythic.isEmpty) with h0 | h0 <;>
    rw [h0] at h <;> simp only [Bool.false_eq_true, if_false, if_true] at h <;>
    split at h
  · simp at h
  · exact Or.inl (pickRandomList_mem h)
  · simp at h
  · exact Or.inr (pickRandomList_mem h)

theorem genPack_mem (thr : ℚ) (b : Buckets) (o : Nat → Nat) (i : Nat)
    (c : Card) (h : c ∈ (genPack thr b o i).1) :
    c ∈ b.mythic ∨ c ∈ b.rare ∨ c ∈ b.uncommon ∨ c ∈ b.common := by
  simp only [genPack] at h
  rcases List.mem_append.mp h with h1 | h3
  · rcases List.mem_append.mp h1 with h4 | h5
    · rcases rareDraw_mem thr b o i c h4 with h6 | h6
      · exact Or.inl h6
      · exact Or.inr (Or.inl h6)
    · exact Or.inr (Or.inr (Or.inl (drawN_mem b.uncommon o 3 _ c h5)))
  · exact Or.inr (Or.inr (Or.inr (drawN_mem b.common o 10 _ c h3)))

theorem genPacks_mem (thr : ℚ) (b : Buckets) (o : Nat → Nat) :
    ∀ n i c, c ∈ (genPacks thr b o n i).1 →
      c ∈ b.mythic ∨ c ∈ b.rare ∨ c ∈ b.uncommon ∨ c ∈ b.common := by
  intro n
  induction n with
  | zero => intro i c h; simp [genPacks] at h
  | succ k ih =>
    intro i c h
    simp only [genPacks] at h
    rcases List.mem_append.mp h with h1 | h2
    · exact genPack_mem thr b o i c h1
    · exact ih _ c h2

theorem generateSealedPool_mem (cards : List Card) (seed : Option JSSeed)
    (amb : Nat → Nat) (c : Card)
    (h : c ∈ generateSealedPool cards seed amb) : c ∈ cards := by
  have h2 := genPacks_mem (Rat.divInt 1 8) (byRarity cards)
    (randomStream seed amb) 6 0 c h
  rcases h2 with h3 | h3 | h3 | h3 <;>
    · simp only [byRarity] at h3
      exact (List.mem_filter.mp h3).1

theorem lookupRar_sub {cards : List Card} :
    ∀ {m : List (String × List Card)},
      (∀ p ∈ m, ∀ x ∈ p.2, x ∈ cards) →
      ∀ {k v}, lookupRar m k = some v → ∀ x ∈ v, x ∈ cards := by
  intro m
  induction m with
  | nil => intro _ k v h; simp [lookupRar] at h
  | cons p rest ih =>
    intro hm k v h
    simp only [lookupRar] at h
    split at h
    · cases h
      exact hm p (by simp)
    · exact ih (fun q hq => hm q (by simp [hq])) h

theorem setRar_sub {cards : List Card} {k : String} {v : List Card}
    (hv : ∀ x ∈ v, x ∈ cards) :
    ∀ {m : List (String × List Card)},
      (∀ p ∈ m, ∀ x ∈ p.2, x ∈ cards) →
      ∀ p ∈ setRar m k v, ∀ x ∈ p.2, x ∈ cards := by
  intro m
  induction m with
  | nil =>
    intro _ p hp
    simp only [setRar, List.mem_singleton] at hp
    subst hp
    exact hv
  | cons hd tl ih =>
    intro hm p hp
    simp only [setRar] at hp
    split at hp
    · rcases List.mem_cons.mp hp with h1 | h1
      · subst h1; exact hv
      · exact hm _ (List.mem_cons_of_mem _ h1)
    · rcases List.mem_cons.mp hp with h1 | h1
      · subst h1; exact hm _ (List.mem_cons_self _ _)
      · exact ih (fun r hr => hm r (List.mem_cons_of_mem _ hr)) p h1

theorem addUnique_mem {bucket : List Card} {x c : Card}
    (h : c ∈ addUnique bucket x) : c ∈ bucket ∨ c = x := by
  unfold addUnique at h
  split at h
  · exact Or.inl h
  · rcases List.mem_append.mp h with h1 | h1
    · exact Or.inl h1
    · exact Or.inr (List.mem_singleton.mp h1)

theorem foldl_addUnique_mem :
    ∀ {l : List Card} {b : List Card} {c : Card},
      c ∈ l.foldl addUnique b → c ∈ b ∨ c ∈ l := by
  intro l
  induction l with
  | nil => intro b c h; exact Or.inl h
  | cons x rest ih =>
    intro b c h
    rw [List.foldl_cons] at h
    rcases ih h with h1 | h2
    · rcases addUnique_mem h1 with h3 | h3
      · exact Or.inl h3
      · exact Or.inr (by simp [h3])
    · exact Or.inr (by simp [h2])

theorem rarityStep_sub (cards : List Card) (ranges : List String)
    {m : List (String × List Card)}
    (hm : ∀ p ∈ m, ∀ x ∈ p.2, x ∈ cards) (r : String) :
    ∀ p ∈ rarityStep cards ranges m r, ∀ x ∈ p.2, x ∈ cards := by
  unfold rarityStep
  apply setRar_sub _ hm
  intro x hx
  rcases foldl_addUnique_mem hx with h1 | h2
  · cases hl : lookupRar m r with
    | none => rw [hl] at h1; simp at h1
    | some v =>
      rw [hl] at h1
      exact lookupRar_sub hm hl x h1
  · exact (List.mem_filter.mp h2).1

theorem foldl_rarityStep_sub (cards : List Card) (ranges : List String) :
    ∀ (rs : List String) {m : List (String × List Card)},
      (∀ p ∈ m, ∀ x ∈ p.2, x ∈ cards) →
      ∀ p ∈ rs.foldl (rarityStep cards ranges) m, ∀ x ∈ p.2, x ∈ cards := by
  intro rs
  induction rs with
  | nil => intro m hm; exact hm
  | cons r rest ih =>
    intro m hm
    rw [List.foldl_cons]
    exact ih (rarityStep_sub cards ranges hm r)

theorem buildByRarity_sub (cards : List Card) :
    ∀ (slots : List Slot) {m : List (String × List Card)},
      (∀ p ∈ m, ∀ x ∈ p.2, x ∈ cards) →
      ∀ p ∈ buildByRarity cards slots m, ∀ x ∈ p.2, x ∈ cards := by
  intro slots
  induction slots with
  | nil => intro m hm; exact hm
  | cons sl rest ih =>
    intro m hm
    unfold buildByRarity
    cases hpool : sl.pool with
    | none => exact ih hm
    | some pl =>
      cases hrs : sl.rarities with
      | none => exact ih hm
      | some rs =>
        exact ih (foldl_rarityStep_sub cards (slotRangesOf pl) rs hm)

theorem allInPool_sub (cards : List Card) (slots : List Slot) :
    ∀ x ∈ allInPool cards slots, x ∈ cards := by
  intro x hx
  exact (List.mem_filter.mp hx).1

theorem slotItem_mem {cards : List Card} {byR : List (String × List Card)}
    {allP : List Card} (sl : Slot) (o : Nat → Nat) (i : Nat) {c : Card}
    (hm : ∀ p ∈ byR, ∀ x ∈ p.2, x ∈ cards)
    (ha : ∀ x ∈ allP, x ∈ cards)
    (h : c ∈ (slotItem byR allP sl o i).1) : c ∈ cards := by
  cases hsr : sl.rarities with
  | some rs =>
    simp only [slotItem, hsr] at h
    split at h
    · simp at h
    · have h2 := pickRandomList_mem h
      cases hg : (chooseRarity byR sl rs o i).1.bind (lookupRar byR) with
      | none => rw [hg] at h2; simp at h2
      | some v =>
        rw [hg] at h2
        obtain ⟨k, hk, hlk⟩ := Option.bind_eq_some.mp hg
        exact lookupRar_sub hm hlk c (by simpa using h2)
  | none =>
    simp only [slotItem, hsr] at h
    split at h
    · simp at h
    · exact ha c (List.mem_filter.mp (pickRandomList_mem h)).1

theorem slotItems_mem {cards : List Card} {byR : List (String × List Card)}
    {allP : List Card} (sl : Slot) (o : Nat → Nat)
    (hm : ∀ p ∈ byR, ∀ x ∈ p.2, x ∈ cards)
    (ha : ∀ x ∈ allP, x ∈ cards) :
    ∀ n i c, c ∈ (slotItems byR allP sl o n i).1 → c ∈ cards := by
  intro n
  induction n with
  | zero => intro i c h; simp [slotItems] at h
  | succ k ih =>
    intro i c h
    simp only [slotItems] at h
    rcases List.mem_append.mp h with h1 | h2
    · exact slotItem_mem sl o i hm ha h1
    · exact ih _ c h2

theorem slotsRun_mem {cards : List Card} {byR : List (String × List Card)}
    {allP : List Card} (o : Nat → Nat)
    (hm : ∀ p ∈ byR, ∀ x ∈ p.2, x ∈ cards)
    (ha : ∀ x ∈ allP, x ∈ cards) :
    ∀ (slots : List Slot) i c, c ∈ (slotsRun byR allP o slots i).1 → c ∈ cards := by
  intro slots
  induction slots with
  | nil => intro i c h; simp [slotsRun] at h
  | cons sl rest ih =>
    intro i c h
    simp only [slotsRun] at h
    cases hpool : sl.pool with
    | none => rw [hpool] at h; exact ih i c h
    | some pl =>
      rw [hpool] at h
      rcases Bool.eq_false_or_eq_true (sl.count == 0) with h0 | h0 <;>
        rw [h0] at h <;>
        simp only [Bool.false_eq_true, if_false, if_true] at h
      · exact ih i c h
      · rcases List.mem_append.mp h with h1 | h2
        · exact slotItems_mem sl o hm ha _ _ c h1
        · exact ih _ c h2

theorem packsRun_mem {cards : List Card} {byR : List (String × List Card)}
    {allP : List Card} (slots : List Slot) (o : Nat → Nat)
    (hm : ∀ p ∈ byR, ∀ x ∈ p.2, x ∈ cards)
    (ha : ∀ x ∈ allP, x ∈ cards) :
    ∀ n i c, c ∈ (packsRun byR allP slots o n i).1 → c ∈ cards := by
  intro n
  induction n with
  | zero => intro i c h; simp [packsRun] at h
  | succ k ih =>
    intro i c h
    simp only [packsRun] at h
    rcases List.mem_append.mp h with h1 | h2
    · exact slotsRun_mem o hm ha slots i c h1
    · exact ih _ c h2

/-- Claim C9: every card in the pool returned by either generator branch
— the structured slot-driven branch or the legacy fallback — is an
element of the input catalog; the generators only select existing cards. -/
theorem C9_pool_membership (bf : Option BoosterFile) (cards : List Card)
    (numPacks : Nat) (seed : Option JSSeed) (amb : Nat → Nat) (c : Card) :
    (c ∈ generateSealedPool cards seed amb → c ∈ cards) ∧
    (c ∈ generateSealedPoolFromBoosterData bf cards numPacks seed amb →
      c ∈ cards) := by
  constructor
  · exact generateSealedPool_mem cards seed amb c
  · intro h
    cases bf with
    | none => exact generateSealedPool_mem cards seed amb c h
    | some f =>
      simp only [generateSealedPoolFromBoosterData] at h
      exact packsRun_mem f.slots (randomStream seed amb)
        (buildByRarity_sub cards f.slots (by simp))
        (allInPool_sub cards f.slots) numPacks 0 c h

/-- Witness for C9: the single rare of a one-card catalog is (trivially)
recovered as a catalog member from its own generated pool. -/
theorem C9_witness :
    (⟨1, "1", "rare", none, none⟩ : Card) ∈
      [(⟨1, "1", "rare", none, none⟩ : Card)] :=
  (C9_pool_membership none [⟨1, "1", "rare", none, none⟩] 6 none (fun _ => 0)
    ⟨1, "1", "rare", none, none⟩).1 (by decide)
